import Mathlib

/-!
Shallow embedding of the `ikea-dramaturge-extracteur` service.

Two builds are embedded:
* the "v3" build (`src/src/index.js`): `extractPlannerId`, `validateUrl`,
  `extractGamme`, `computeExtractionHash`, the orchestrator `extractItems`
  and the `/extract-items` Express handler;
* the "simple-v1" build (`src/unnamed/part_000`): `extractPlannerId`,
  `computeHash`, `parseItemsFromText` and the `/extract-items` handler body.

JavaScript strings are modelled as Lean `String` / `List Char`; machine
integers do not occur (all JS numbers in the relevant code are small
non-negative integers, modelled as `Nat`); `crypto.createHash("sha256")`
is modelled by a full executable SHA-256 over UTF-8 byte lists; thrown JS
exceptions are modelled with `Except JsError`; the Playwright effects are
modelled by an environment record that fixes the outcome of each awaited
browser operation, and the orchestrator additionally returns the list of
browser lifecycle events it performed, so that resource-usage claims
(launch/close) can be stated.
-/

set_option maxRecDepth 100000

namespace IkeaExtract

/-! ## JavaScript string primitives -/

/-- A thrown JavaScript exception, reduced to the data the service reads
from it: the `message`, and the `code`/`step` carried by the v3
`ExtractionError` subclass (absent on ordinary errors). -/
structure JsError where
  message : String
  code : Option String := none
  step : Option String := none
  deriving Repr, DecidableEq

instance {ε α : Type} [DecidableEq ε] [DecidableEq α] : DecidableEq (Except ε α) := fun x y =>
  match x, y with
  | .ok a, .ok b =>
    if h : a = b then .isTrue (by rw [h]) else .isFalse (by intro hc; cases hc; exact h rfl)
  | .error a, .error b =>
    if h : a = b then .isTrue (by rw [h]) else .isFalse (by intro hc; cases hc; exact h rfl)
  | .ok _, .error _ => .isFalse (by intro hc; cases hc)
  | .error _, .ok _ => .isFalse (by intro hc; cases hc)

/-- JS truthiness of a possibly-absent string value (`undefined` and the
empty string are falsy). -/
def jsTruthy : Option String → Bool
  | none => false
  | some s => !(s == "")

/-- `p.isPrefixOf l` for char lists, written out so the development stays
self-contained and kernel-reducible. -/
def leadsWith : List Char → List Char → Bool
  | [], _ => true
  | _ :: _, [] => false
  | p :: ps, c :: cs => p == c && leadsWith ps cs

/-- `String.prototype.includes` on the underlying char lists. -/
def containsSeq (hay pat : List Char) : Bool :=
  match hay with
  | [] => pat.isEmpty
  | _ :: cs => leadsWith pat hay || containsSeq cs pat

/-- `url.includes(sub)`. -/
def jsIncludes (s sub : String) : Bool := containsSeq s.data sub.data

/-- `String.prototype.toUpperCase`, restricted to the characters the
service can meet: ASCII plus the accented letters appearing in the IKEA
product-line catalogue. -/
def jsUpperChar (c : Char) : Char :=
  if 'a' ≤ c ∧ c ≤ 'z' then Char.ofNat (c.toNat - 32)
  else if c = 'ä' then 'Ä'
  else if c = 'ö' then 'Ö'
  else if c = 'å' then 'Å'
  else if c = 'é' then 'É'
  else c

/-- `s.toUpperCase()`. -/
def jsUpper (s : String) : String := String.mk (s.data.map jsUpperChar)

/-- JS `\s` / `String.prototype.trim` whitespace class (the characters
relevant to scraped page text). -/
def isJsWs (c : Char) : Bool :=
  c == ' ' || c == '\t' || c == '\n' || c == '\r' ||
  c == Char.ofNat 0x0b || c == Char.ofNat 0x0c || c == Char.ofNat 0xa0 ||
  c == Char.ofNat 0xfeff

/-- `s.replace(/\s+/g, " ")`: collapse every maximal whitespace run to a
single space. -/
def collapseWs : List Char → List Char
  | [] => []
  | c :: cs =>
    if isJsWs c then
      match collapseWs cs with
      | d :: ds => if d == ' ' then d :: ds else ' ' :: d :: ds
      | [] => [' ']
    else c :: collapseWs cs

/-- Drop leading JS whitespace. -/
def dropWsHead : List Char → List Char
  | [] => []
  | c :: cs => if isJsWs c then dropWsHead cs else c :: cs

/-- `String.prototype.trim` on char lists. -/
def jsTrimList (l : List Char) : List Char :=
  (dropWsHead ((dropWsHead l.reverse).reverse.reverse)).reverse

/-- `s.trim()`. -/
def jsTrim (s : String) : String := String.mk (jsTrimList s.data)

/-! ## SHA-256 (`crypto.createHash("sha256")`)

A direct executable rendering of FIPS 180-4 over `List Nat` bytes, with
32-bit words as `Nat` reduced `% 2^32`. -/

/-- 32-bit truncation. -/
def m32 (x : Nat) : Nat := x % 4294967296

/-- Right rotation of a 32-bit word. -/
def rotr32 (n x : Nat) : Nat := m32 ((x >>> n) ||| (x <<< (32 - n)))

/-- Bitwise complement within 32 bits. -/
def not32 (x : Nat) : Nat := x ^^^ 4294967295

/-- The SHA-256 round constants (decimal). -/
def sha256K : List Nat :=
  [1116352408, 1899447441, 3049323471, 3921009573, 961987163,
   1508970993, 2453635748, 2870763221, 3624381080, 310598401,
   607225278, 1426881987, 1925078388, 2162078206, 2614888103,
   3248222580, 3835390401, 4022224774, 264347078, 604807628,
   770255983, 1249150122, 1555081692, 1996064986, 2554220882,
   2821834349, 2952996808, 3210313671, 3336571891, 3584528711,
   113926993, 338241895, 666307205, 773529912, 1294757372,
   1396182291, 1695183700, 1986661051, 2177026350, 2456956037,
   2730485921, 2820302411, 3259730800, 3345764771, 3516065817,
   3600352804, 4094571909, 275423344, 430227734, 506948616,
   659060556, 883997877, 958139571, 1322822218, 1537002063,
   1747873779, 1955562222, 2024104815, 2227730452, 2361852424,
   2428436474, 2756734187, 3204031479, 3329325298]

/-- The SHA-256 working state: eight 32-bit words. -/
structure Sha256State where
  s0 : Nat
  s1 : Nat
  s2 : Nat
  s3 : Nat
  s4 : Nat
  s5 : Nat
  s6 : Nat
  s7 : Nat
  deriving Repr, DecidableEq

/-- The SHA-256 initial hash value (decimal). -/
def sha256Init : Sha256State :=
  ⟨1779033703, 3144134277, 1013904242, 2773480762,
   1359893119, 2600822924, 528734635, 1541459225⟩

/-- Extend 16 message-schedule words to 64. `fuel` counts the words still
to generate; the accumulator holds the schedule so far, reversed. -/
def sha256ExtendAux : Nat → List Nat → List Nat
  | 0, acc => acc.reverse
  | fuel + 1, acc =>
    let w2 := acc.getD 1 0
    let w7 := acc.getD 6 0
    let w15 := acc.getD 14 0
    let w16 := acc.getD 15 0
    let sig0 := (rotr32 7 w15) ^^^ (rotr32 18 w15) ^^^ (w15 >>> 3)
    let sig1 := (rotr32 17 w2) ^^^ (rotr32 19 w2) ^^^ (w2 >>> 10)
    sha256ExtendAux fuel (m32 (w16 + sig0 + w7 + sig1) :: acc)

/-- The 64-word message schedule of one block. -/
def sha256Schedule (block : List Nat) : List Nat :=
  sha256ExtendAux 48 block.reverse

/-- One SHA-256 round. -/
def sha256Round (st : Sha256State) (kw : Nat) : Sha256State :=
  let e := st.s4
  let bigSig1 := (rotr32 6 e) ^^^ (rotr32 11 e) ^^^ (rotr32 25 e)
  let ch := (e &&& st.s5) ^^^ ((not32 e) &&& st.s6)
  let t1 := m32 (st.s7 + bigSig1 + ch + kw)
  let a := st.s0
  let bigSig0 := (rotr32 2 a) ^^^ (rotr32 13 a) ^^^ (rotr32 22 a)
  let maj := (a &&& st.s1) ^^^ (a &&& st.s2) ^^^ (st.s1 &&& st.s2)
  let t2 := m32 (bigSig0 + maj)
  ⟨m32 (t1 + t2), st.s0, st.s1, st.s2, m32 (st.s3 + t1), st.s4, st.s5, st.s6⟩

/-- Process one 512-bit block (given as 16 32-bit words). -/
def sha256Block (st : Sha256State) (block : List Nat) : Sha256State :=
  let ks := (sha256K.zip (sha256Schedule block)).map fun p => m32 (p.1 + p.2)
  let r := ks.foldl sha256Round st
  ⟨m32 (st.s0 + r.s0), m32 (st.s1 + r.s1), m32 (st.s2 + r.s2),
   m32 (st.s3 + r.s3), m32 (st.s4 + r.s4), m32 (st.s5 + r.s5),
   m32 (st.s6 + r.s6), m32 (st.s7 + r.s7)⟩

/-- Group a byte list into 32-bit big-endian words. `fuel` bounds the
recursion; it is instantiated with the list length. -/
def bytesToWordsAux : Nat → List Nat → List Nat
  | 0, _ => []
  | _, [] => []
  | fuel + 1, b0 :: rest =>
    let b1 := rest.getD 0 0
    let b2 := rest.getD 1 0
    let b3 := rest.getD 2 0
    (((b0 <<< 8 ||| b1) <<< 8 ||| b2) <<< 8 ||| b3) :: bytesToWordsAux fuel (rest.drop 3)

/-- Group a byte list (length a multiple of 4) into big-endian words. -/
def bytesToWords (bs : List Nat) : List Nat := bytesToWordsAux bs.length bs

/-- Split a word list into 16-word blocks. `fuel` bounds the recursion. -/
def wordsToBlocksAux : Nat → List Nat → List (List Nat)
  | 0, _ => []
  | _, [] => []
  | fuel + 1, ws => ws.take 16 :: wordsToBlocksAux fuel (ws.drop 16)

/-- Split a word list into 16-word blocks. -/
def wordsToBlocks (ws : List Nat) : List (List Nat) := wordsToBlocksAux ws.length ws

/-- Big-endian bytes of a number, fixed width. -/
def beBytes : Nat → Nat → List Nat
  | 0, _ => []
  | w + 1, n => (n >>> (8 * w)) % 256 :: beBytes w n

/-- SHA-256 padding: append `0x80`, zero bytes to 56 mod 64, then the
64-bit big-endian bit length. -/
def sha256Pad (msg : List Nat) : List Nat :=
  let len := msg.length
  let zeros := (64 + 55 - (len % 64)) % 64
  msg ++ 0x80 :: List.replicate zeros 0 ++ beBytes 8 (8 * len)

/-- The SHA-256 digest state of a byte message. -/
def sha256Digest (msg : List Nat) : Sha256State :=
  (wordsToBlocks (bytesToWords (sha256Pad msg))).foldl sha256Block sha256Init

/-- The lowercase hex alphabet (as `.digest("hex")` prints). -/
def hexDigits : List Char := "0123456789abcdef".data

/-- Lowercase hex digit of `n % 16`. -/
def hexChar (n : Nat) : Char := hexDigits.getD (n % 16) '0'

/-- The eight hex characters of one 32-bit word, most significant first. -/
def wordHexChars (w : Nat) : List Char :=
  [hexChar (w >>> 28), hexChar (w >>> 24), hexChar (w >>> 20), hexChar (w >>> 16),
   hexChar (w >>> 12), hexChar (w >>> 8), hexChar (w >>> 4), hexChar w]

/-- The 64 hex characters of a digest state. -/
def digestHexChars (st : Sha256State) : List Char :=
  wordHexChars st.s0 ++ wordHexChars st.s1 ++ wordHexChars st.s2 ++
  wordHexChars st.s3 ++ wordHexChars st.s4 ++ wordHexChars st.s5 ++
  wordHexChars st.s6 ++ wordHexChars st.s7

/-- UTF-8 encoding of one character (Node's default `utf8` input
encoding for `hash.update(string)`). -/
def utf8Bytes (c : Char) : List Nat :=
  let n := c.toNat
  if n < 0x80 then [n]
  else if n < 0x800 then [0xc0 ||| (n >>> 6), 0x80 ||| (n &&& 0x3f)]
  else if n < 0x10000 then
    [0xe0 ||| (n >>> 12), 0x80 ||| ((n >>> 6) &&& 0x3f), 0x80 ||| (n &&& 0x3f)]
  else
    [0xf0 ||| (n >>> 18), 0x80 ||| ((n >>> 12) &&& 0x3f),
     0x80 ||| ((n >>> 6) &&& 0x3f), 0x80 ||| (n &&& 0x3f)]

/-- UTF-8 bytes of a string. -/
def strBytes (s : String) : List Nat := s.data.flatMap utf8Bytes

/-- `crypto.createHash("sha256").update(s).digest("hex")`. -/
def sha256Hex (s : String) : List Char := digestHexChars (sha256Digest (strBytes s))

/-! ## `JSON.stringify` on the shapes the service serializes -/

/-- `JSON.stringify` escaping of one character. -/
def jsonEscapeChar (c : Char) : List Char :=
  if c = '"' then ['\\', '"']
  else if c = '\\' then ['\\', '\\']
  else if c = Char.ofNat 8 then ['\\', 'b']
  else if c = '\t' then ['\\', 't']
  else if c = '\n' then ['\\', 'n']
  else if c = Char.ofNat 12 then ['\\', 'f']
  else if c = '\r' then ['\\', 'r']
  else if c.toNat < 32 then
    ['\\', 'u', '0', '0', hexChar (c.toNat >>> 4), hexChar c.toNat]
  else [c]

/-- A JSON string literal for `s`. -/
def jsonStr (s : String) : String :=
  String.mk ('"' :: s.data.flatMap jsonEscapeChar ++ ['"'])

/-- Join serialized array elements with commas. -/
def joinComma : List String → String
  | [] => ""
  | [s] => s
  | s :: rest => s ++ "," ++ joinComma rest

/-! ## Items and the two hash functions -/

/-- An item as built by `parseItemsFromText` in the simple-v1 build.
`extra` models any further own-properties a JS item object may carry
(the parser itself creates none); `computeHash` drops them, exactly as
the source's `items.map` projection does. -/
structure JsItem where
  raw_name : String
  article_number : String
  qty : Nat
  extra : List (String × String) := []
  deriving Repr, DecidableEq

/-- The projection serialized by `computeHash`:
`{raw_name: i.raw_name, article_number: i.article_number, qty: i.qty}`. -/
def hashItemJson (i : JsItem) : String :=
  "\x7b\"raw_name\":" ++ jsonStr i.raw_name ++
  ",\"article_number\":" ++ jsonStr i.article_number ++
  ",\"qty\":" ++ toString i.qty ++ "\x7d"

/-- `computeHash(items, plannerId, nonce, extractedAt)` from the
simple-v1 build: SHA-256 of the canonical JSON payload, truncated to the
first 12 hex characters. -/
def computeHash (items : List JsItem) (plannerId nonce extractedAt : String) : String :=
  let payload :=
    "\x7b\"items\":[" ++ joinComma (items.map hashItemJson) ++
    "],\"planner_id\":" ++ jsonStr plannerId ++
    ",\"request_nonce\":" ++ jsonStr nonce ++
    ",\"extracted_at\":" ++ jsonStr extractedAt ++ "\x7d"
  String.mk ((sha256Hex payload).take 12)

/-- An item as built by the v3 orchestrator `extractItems`:
`{raw_name, gamme, qty}`. -/
structure ItemV3 where
  raw_name : String
  gamme : String
  qty : Nat
  deriving Repr, DecidableEq

/-- `JSON.stringify` of one v3 item (insertion order of its keys). -/
def itemV3Json (i : ItemV3) : String :=
  "\x7b\"raw_name\":" ++ jsonStr i.raw_name ++
  ",\"gamme\":" ++ jsonStr i.gamme ++
  ",\"qty\":" ++ toString i.qty ++ "\x7d"

/-- `computeExtractionHash(items, plannerId, nonce, date)` from the v3
build: `JSON.stringify({items, plannerId, nonce, date})` digested and
truncated to 12 hex characters. The items are serialized whole (no
projection to identity fields, unlike the simple-v1 `computeHash`). -/
def computeExtractionHash (items : List ItemV3) (plannerId nonce date : String) : String :=
  let payload :=
    "\x7b\"items\":[" ++ joinComma (items.map itemV3Json) ++
    "],\"plannerId\":" ++ jsonStr plannerId ++
    ",\"nonce\":" ++ jsonStr nonce ++
    ",\"date\":" ++ jsonStr date ++ "\x7d"
  String.mk ((sha256Hex payload).take 12)

/-! ## `extractPlannerId` and `validateUrl`

Both builds define the same `extractPlannerId`: the first match of the
case-insensitive regex
`([A-F0-9]{8}-[A-F0-9]{4}-[A-F0-9]{4}-[A-F0-9]{4}-[A-F0-9]{12})`,
uppercased, else `null`. The regex has only exact-count quantifiers, so a
match attempt at a position is deterministic and `exec` finds the
leftmost matching position. -/

/-- The character class `[A-F0-9]` under the `i` flag. -/
def isHexUuidChar (c : Char) : Bool :=
  c.isDigit || ('A' ≤ c && c ≤ 'F') || ('a' ≤ c && c ≤ 'f')

/-- Consume exactly `n` hex characters, returning them and the rest. -/
def takeHexN : Nat → List Char → Option (List Char × List Char)
  | 0, l => some ([], l)
  | _ + 1, [] => none
  | n + 1, c :: cs =>
    if isHexUuidChar c then
      match takeHexN n cs with
      | some (a, r) => some (c :: a, r)
      | none => none
    else none

/-- Consume a literal `-`. -/
def expectDash : List Char → Option (List Char)
  | d :: r => if d = '-' then some r else none
  | [] => none

/-- Match dash-separated hex groups of the given sizes at the head of the
input; return the matched characters and the rest. -/
def groupsAt : List Nat → List Char → Option (List Char × List Char)
  | [], l => some ([], l)
  | [n], l => takeHexN n l
  | n :: n2 :: ns, l =>
    (takeHexN n l).bind fun p =>
      (expectDash p.2).bind fun r2 =>
        (groupsAt (n2 :: ns) r2).map fun q => (p.1 ++ '-' :: q.1, q.2)

/-- The 8-4-4-4-12 group sizes of the UUID regex. -/
def uuidGroups : List Nat := [8, 4, 4, 4, 12]

/-- Attempt the UUID regex at the head of the input. -/
def uuidAt (l : List Char) : Option (List Char) :=
  match groupsAt uuidGroups l with
  | some (m, _) => some m
  | none => none

/-- Leftmost match of the UUID regex anywhere in the input. -/
def scanUuid : List Char → Option (List Char)
  | [] => none
  | c :: cs =>
    match uuidAt (c :: cs) with
    | some m => some m
    | none => scanUuid cs

/-- `extractPlannerId(url)`: leftmost UUID-shaped substring, uppercased,
else `null`. -/
def extractPlannerId (url : String) : Option String :=
  (scanUuid url.data).map fun m => String.mk (m.map jsUpperChar)

/-- Build a JS error value carrying only a message. -/
def jsErr (msg : String) : JsError := ⟨msg, none, none⟩

/-- The fixed domain substring checked by both builds. -/
def plannerDomain : String := "kitchen.planner.ikea.com"

/-- The v3 `ExtractionError('INVALID_DOMAIN', 'Domaine invalide', 'validate_url')`. -/
def invalidDomainErr : JsError := ⟨"Domaine invalide", some "INVALID_DOMAIN", some "validate_url"⟩

/-- The v3 `ExtractionError('MISSING_PLANNER_ID', 'UUID manquant', 'validate_url')`. -/
def missingPlannerIdErr : JsError := ⟨"UUID manquant", some "MISSING_PLANNER_ID", some "validate_url"⟩

/-- `validateUrl(url)` from the v3 build: substring domain check, then
planner-id extraction; throws `ExtractionError` on either failure. -/
def validateUrl (url : String) : Except JsError String :=
  if !(jsIncludes url plannerDomain) then .error invalidDomainErr
  else
    match extractPlannerId url with
    | none => .error missingPlannerIdErr
    | some plannerId => .ok plannerId

/-! ## `parseItemsFromText` (simple-v1) -/

/-- Consume exactly `n` decimal digits (`\d`). -/
def takeDigitsN : Nat → List Char → Option (List Char × List Char)
  | 0, l => some ([], l)
  | _ + 1, [] => none
  | n + 1, c :: cs =>
    if c.isDigit then
      match takeDigitsN n cs with
      | some (a, r) => some (c :: a, r)
      | none => none
    else none

/-- Consume the separator class `[.\-]`. -/
def sepThen : List Char → Option (List Char)
  | s :: r => if s == '.' || s == '-' then some r else none
  | [] => none

/-- Attempt `(\d{3})[.\-](\d{3})[.\-](\d{2})` at the head of the input;
on success return the normalized dotted article number. -/
def matchArtAt (l : List Char) : Option String :=
  (takeDigitsN 3 l).bind fun p1 =>
    (sepThen p1.2).bind fun r2 =>
      (takeDigitsN 3 r2).bind fun p2 =>
        (sepThen p2.2).bind fun r4 =>
          (takeDigitsN 2 r4).map fun p3 =>
            String.mk (p1.1 ++ '.' :: p2.1 ++ '.' :: p3.1)

/-- The bounded context window around a match:
`text.slice(max(0, i-80), min(len, i+80)).replace(/\s+/g, " ").trim()`,
with the `|| "UNKNOWN"` fallback for an empty result. -/
def ctxAt (full : List Char) (i : Nat) : String :=
  let ctx := jsTrimList (collapseWs ((full.take (min full.length (i + 80))).drop (i - 80)))
  if ctx.isEmpty then "UNKNOWN" else String.mk ctx

/-- The `articlePattern.exec` loop of `parseItemsFromText`: scan left to
right; on a match at position `i` advance `lastIndex` past the 10 matched
characters, emit an item unless the normalized number was already seen.
`fuel` bounds the recursion and is instantiated with the text length. -/
def scanArts (full : List Char) : Nat → List Char → Nat → List String → List JsItem
  | 0, _, _, _ => []
  | _ + 1, [], _, _ => []
  | fuel + 1, c :: cs, i, seen =>
    match matchArtAt (c :: cs) with
    | some art =>
      if seen.contains art then
        scanArts full fuel ((c :: cs).drop 10) (i + 10) seen
      else
        ⟨ctxAt full i, art, 1, []⟩ :: scanArts full fuel ((c :: cs).drop 10) (i + 10) (art :: seen)
    | none => scanArts full fuel cs (i + 1) seen

/-- `parseItemsFromText(text)` from the simple-v1 build. -/
def parseItemsFromText (text : String) : List JsItem :=
  scanArts text.data text.data.length text.data 0 []

/-! ## `extractGamme` (v3) -/

/-- The fixed `IKEA_GAMMES` catalogue. -/
def IKEA_GAMMES : List String :=
  ["RINGHULT", "AXSTAD", "VOXTORP", "KUNGSBACKA", "LERHYTTAN", "BODARP",
   "HAVSTORP", "STENSUND", "ASKERSUND", "SÄVEDAL", "TORHAMN", "EKESTAD",
   "JUTIS", "HITTARP", "FÖRBÄTTRA", "KALLARP", "METOD", "MAXIMERA", "UTRUSTA"]

/-- `extractGamme(name)`: first catalogue entry contained in the
uppercased name, else `"UNKNOWN"`. -/
def extractGamme (name : String) : String :=
  match IKEA_GAMMES.find? (fun g => jsIncludes (jsUpper name) g) with
  | some g => g
  | none => "UNKNOWN"

/-! ## The v3 orchestrator `extractItems`

Awaited Playwright operations are modelled by an environment that fixes
each operation's outcome; the orchestrator returns, besides its
`Except`-modelled result (a rejection or an envelope), the list of
browser lifecycle events it performed. -/

/-- Browser lifecycle events: a `chromium.launch` call, its successful
completion (the browser now exists), and a `browser.close()` call. -/
inductive BrowserEv where
  | launchTry
  | launched
  | closed
  deriving Repr, DecidableEq

/-- Outcomes of the awaited browser operations during one v3 extraction:
a `false` flag means that step's promise rejects; a `none` row means
reading that row's text content faults (rejected read, or a `null`
`textContent` making `.trim()` throw). `errMsg` is the message of
whichever fault occurs. -/
structure EnvV3 where
  launchOk : Bool
  newPageOk : Bool
  gotoOk : Bool
  clickOk : Bool
  rows : List (Option String)
  closeOk : Bool
  now : String
  errMsg : String
  deriving Repr, DecidableEq

/-- The success envelope returned by the v3 `extractItems`
(`source_context: {modal_found: true}` reduced to its flag). -/
structure SuccessV3 where
  extract_version : String
  extraction_hash : String
  extracted_at : String
  planner_id : String
  planner_url : String
  request_nonce : String
  modal_found : Bool
  items : List ItemV3
  deriving Repr, DecidableEq

/-- The envelope returned by the v3 `extractItems`: `{success: true, ...}`
or `{success: false, error_message}`. -/
inductive ResultV3 where
  | envOk (r : SuccessV3)
  | envFail (error_message : String)
  deriving Repr, DecidableEq

/-- The `success` flag of a v3 envelope. -/
def ResultV3.success : ResultV3 → Bool
  | .envOk _ => true
  | .envFail _ => false

/-- The v3 row loop: `(await rows.nth(i).textContent()).trim()` for each
row, pushing `{raw_name, gamme, qty: 1}`; the first faulting read throws
out of the loop. -/
def readRowsV3 (msg : String) : List (Option String) → Except JsError (List ItemV3)
  | [] => .ok []
  | none :: _ => .error (jsErr msg)
  | some t :: rest =>
    match readRowsV3 msg rest with
    | .ok items => .ok (⟨jsTrim t, extractGamme (jsTrim t), 1⟩ :: items)
    | .error e => .error e

/-- The body of the v3 `try` block after validation: launch, new page,
navigation, modal click, row reads. Returns the outcome together with
whether the browser was assigned (so `finally` will close it). -/
def runTryV3 (env : EnvV3) : Except JsError (List ItemV3) × Bool :=
  if env.launchOk then
    if env.newPageOk then
      if env.gotoOk then
        if env.clickOk then (readRowsV3 env.errMsg env.rows, true)
        else (.error (jsErr env.errMsg), true)
      else (.error (jsErr env.errMsg), true)
    else (.error (jsErr env.errMsg), true)
  else (.error (jsErr env.errMsg), false)

/-- `extractItems(plannerUrl, requestNonce)` from the v3 build.
`validateUrl` runs before the `try`, so its exceptions propagate; every
fault inside the `try` is converted by the `catch` into a
`{success: false}` envelope; the `finally` closes the browser when it
was assigned, and a rejected `close()` replaces the result with that
rejection. -/
def extractItemsV3 (env : EnvV3) (plannerUrl requestNonce : String) :
    Except JsError ResultV3 × List BrowserEv :=
  match validateUrl plannerUrl with
  | .error e => (.error e, [])
  | .ok plannerId =>
    let t := runTryV3 env
    let caught : ResultV3 :=
      match t.1 with
      | .ok items =>
        .envOk ⟨"v3", computeExtractionHash items plannerId requestNonce env.now,
                env.now, plannerId, plannerUrl, requestNonce, true, items⟩
      | .error e => .envFail e.message
    ((if t.2 then
        (if env.closeOk then .ok caught else .error (jsErr env.errMsg))
      else .ok caught),
     (if t.2 then [.launchTry, .launched, .closed] else [.launchTry]))

/-! ## The v3 `/extract-items` handler -/

/-- One v3 HTTP exchange: the auth middleware's inputs and the request
body (`none` = absent field), plus the extraction environment. -/
structure EnvHV3 where
  apiKey : Option String
  headerKey : Option String
  planner_url : Option String
  request_nonce : Option String
  env3 : EnvV3
  deriving Repr, DecidableEq

/-- A v3 HTTP response body. -/
inductive V3Resp where
  | unauthorized
  | badRequest
  | result (r : ResultV3)
  deriving Repr, DecidableEq

/-- The v3 `/extract-items` handler (auth middleware then handler body).
There is no `try`/`catch` here: a rejection of `extractItems` (e.g. a
validation `ExtractionError`) escapes as an unhandled rejection and no
response is produced, modelled as `Except.error`. -/
def handlerV3 (env : EnvHV3) : Except JsError (Nat × V3Resp) × List BrowserEv :=
  if jsTruthy env.apiKey && !(env.headerKey == env.apiKey) then
    (.ok (401, .unauthorized), [])
  else if !(jsTruthy env.planner_url) || !(jsTruthy env.request_nonce) then
    (.ok (400, .badRequest), [])
  else
    let r := extractItemsV3 env.env3 (env.planner_url.getD "") (env.request_nonce.getD "")
    match r.1 with
    | .ok res => (.ok ((if res.success then 200 else 500), .result res), r.2)
    | .error e => (.error e, r.2)

/-! ## The simple-v1 `/extract-items` handler -/

/-- One simple-v1 HTTP exchange: configuration, headers, body, the
outcomes of the awaited Playwright operations, and the values produced by
the ambient effects (`crypto.randomUUID()`, `new Date().toISOString()`,
the elapsed-time reads). -/
structure EnvS1 where
  apiKey : String
  headerKey : Option String
  planner_url : Option String
  request_nonce : Option String
  genUuid : String
  now : String
  durationMs : Nat
  launchOk : Bool
  newPageOk : Bool
  gotoOk : Bool
  evalOk : Bool
  contentOk : Bool
  bodyText : String
  html : String
  closeOk : Bool
  errMsg : String
  deriving Repr, DecidableEq

/-- The `totals` object of a simple-v1 success payload. -/
structure S1Totals where
  items_count : Nat
  total_quantity : Nat
  deriving Repr, DecidableEq

/-- The `data` object of a simple-v1 success payload. -/
structure S1Data where
  extract_version : String
  extraction_method : String
  extraction_hash : String
  extracted_at : String
  planner_id : String
  planner_url : String
  request_nonce : String
  totals : S1Totals
  items : List JsItem
  duration_ms : Nat
  deriving Repr, DecidableEq

/-- A simple-v1 response body, one constructor per `res.json` shape. -/
inductive S1Body where
  | unauthorized
  | fieldError (code message : String)
  | success (d : S1Data)
  | extractionFailed (code message : String) (duration_ms : Nat)
  | internalError (message : String)
  deriving Repr, DecidableEq

/-- A simple-v1 HTTP response: status and body. -/
structure S1Resp where
  status : Nat
  body : S1Body
  deriving Repr, DecidableEq

/-- The inner Playwright block of the simple-v1 handler: launch, new
page, navigation, settle delay, `innerText` read, `content()` read,
regex parse, hash, success payload. Returns the outcome and whether the
browser was assigned. -/
def runBrowseS1 (env : EnvS1) (url plannerId nonce : String) :
    Except JsError S1Data × Bool :=
  if env.launchOk then
    if env.newPageOk then
      if env.gotoOk then
        if env.evalOk then
          if env.contentOk then
            let combined := env.bodyText ++ "\n" ++ env.html
            let items := parseItemsFromText combined
            (.ok ⟨"simple-v1", "playwright_no_click",
                  computeHash items plannerId nonce env.now, env.now, plannerId, url, nonce,
                  ⟨items.length, items.foldl (fun s i => s + i.qty) 0⟩,
                  items, env.durationMs⟩, true)
          else (.error (jsErr env.errMsg), true)
        else (.error (jsErr env.errMsg), true)
      else (.error (jsErr env.errMsg), true)
    else (.error (jsErr env.errMsg), true)
  else (.error (jsErr env.errMsg), false)

/-- The validation prefix of the simple-v1 handler body: auth check,
required `planner_url`, domain substring check, planner-id extraction,
nonce defaulting. Returns the early response or `(url, plannerId, nonce)`. -/
def s1Validate (env : EnvS1) : Except S1Resp (String × String × String) :=
  if env.apiKey == "" || !(env.headerKey.getD "" == env.apiKey) then
    .error ⟨401, .unauthorized⟩
  else if !(jsTruthy env.planner_url) then
    .error ⟨400, .fieldError "MISSING_URL" "planner_url est obligatoire"⟩
  else
    let url := env.planner_url.getD ""
    if !(jsIncludes url plannerDomain) then
      .error ⟨400, .fieldError "INVALID_DOMAIN" "URL doit être kitchen.planner.ikea.com"⟩
    else
      match extractPlannerId url with
      | none => .error ⟨400, .fieldError "MISSING_PLANNER_ID" "UUID manquant dans l'URL"⟩
      | some plannerId =>
        .ok (url, plannerId, if jsTruthy env.request_nonce then env.request_nonce.getD "" else env.genUuid)

/-- The simple-v1 `/extract-items` handler body. The inner `catch` turns
any Playwright fault into a 200 `EXTRACTION_FAILED` envelope
(`e?.message || "Playwright failed"`); the inner `finally` closes the
browser when assigned, swallowing a rejected `close()`; the outer
`catch` (500 `INTERNAL_ERROR`) has nothing left to catch, since every
statement around the inner `try` is synchronous and total. -/
def handlerS1 (env : EnvS1) : S1Resp × List BrowserEv :=
  match s1Validate env with
  | .error resp => (resp, [])
  | .ok (url, plannerId, nonce) =>
    let b := runBrowseS1 env url plannerId nonce
    let resp : S1Resp :=
      match b.1 with
      | .ok d => ⟨200, .success d⟩
      | .error e =>
        ⟨200, .extractionFailed "PLAYWRIGHT_FAILED"
              (if e.message == "" then "Playwright failed" else e.message) env.durationMs⟩
    (resp, if b.2 then [.launchTry, .launched, .closed] else [.launchTry])

/-! ## Spec-side URL host model

`spec.md` §4.1 states the domain check as a host comparison ("exact or
subdomain match on a fixed hostname"). The source performs a substring
test instead, so — for the refinement comparison only — the host of a URL
is modelled here from the spec's words. -/

/-- Does `l` end with `p`? -/
def endsWithSeq (l p : List Char) : Bool := leadsWith p.reverse l.reverse

/-- The characters after the first `://`, or the whole input when no
scheme separator occurs. -/
def afterScheme : List Char → List Char
  | [] => []
  | c :: cs => if leadsWith [':', '/', '/'] (c :: cs) then cs.drop 2 else afterScheme cs

/-- Modelled from the spec: the host of a URL — the part after the
`://` scheme separator, up to the first `/`, `:`, `?` or `#`. -/
def specHostOf (url : String) : String :=
  String.mk ((afterScheme url.data).takeWhile
    fun c => !(c == '/' || c == ':' || c == '?' || c == '#'))

/-- Modelled from the spec: "exact or subdomain match on a fixed
hostname" for the planner application domain. -/
def specHostMatches (hostName : String) : Bool :=
  hostName == plannerDomain || endsWithSeq hostName.data ('.' :: plannerDomain.data)

/-! ## Predicates used by the claim statements -/

/-- `t` occurs as a contiguous substring of `l`. -/
def occursIn (t l : List Char) : Prop := ∃ pre post, l = pre ++ t ++ post

/-- `t` is exactly UUID-shaped (8-4-4-4-12 hex groups): the UUID regex
matches at its head and consumes all of it. -/
def shapedB (t : List Char) : Bool := uuidAt t == some t

/-- Agreement of two items on the identity-relevant fields serialized by
`computeHash`. -/
def agreeIdFields (a b : JsItem) : Prop :=
  a.raw_name = b.raw_name ∧ a.article_number = b.article_number ∧ a.qty = b.qty

/-- A canonical dotted article number: `DDD.DDD.DD`. -/
def isDottedArt (s : String) : Bool :=
  match s.data with
  | [a, b, c, p, d, e, f, q, g, k] =>
    a.isDigit && b.isDigit && c.isDigit && (p == '.') && d.isDigit && e.isDigit &&
    f.isDigit && (q == '.') && g.isDigit && k.isDigit
  | _ => false

/-- Does a simple-v1 success payload have equal `total_quantity` and
`items_count`? (Trivially holds for non-success bodies.) -/
def s1TotalsOk : S1Body → Bool
  | .success d => d.totals.total_quantity == d.totals.items_count
  | _ => true

/-- Does a simple-v1 success payload carry the given `request_nonce`?
(Trivially holds for non-success bodies.) -/
def s1NonceIs (b : S1Body) (x : String) : Bool :=
  match b with
  | .success d => d.request_nonce == x
  | _ => true

/-! ## Concrete fixtures used by witnesses and counterexamples -/

/-- A well-formed planner URL with a lowercase embedded UUID. -/
def url0 : String := "https://kitchen.planner.ikea.com/plan/3fa85f64-5717-4562-b3fc-2c963f66afa6"

/-- The planner id embedded (lowercased) in `url0`. -/
def pid0 : String := "3FA85F64-5717-4562-B3FC-2C963F66AFA6"

/-- A URL whose host is `evil.com` but which contains the planner domain
and a UUID later in its path. -/
def urlEvil : String :=
  "https://evil.com/kitchen.planner.ikea.com/plan/3FA85F64-5717-4562-B3FC-2C963F66AFA6"

/-- A v3 environment in which every browser step succeeds. -/
def envAllOk : EnvV3 :=
  ⟨true, true, true, true, [some " METOD x ", some "zzz"], true, "2024-01-01T00:00:00.000Z", "boom"⟩

/-- A v3 environment whose second row read faults while the first and
third succeed. -/
def envRowFault : EnvV3 :=
  ⟨true, true, true, true, [some "A", none, some "C"], true, "2024-01-01T00:00:00.000Z", "row gone"⟩

/-- A simple-v1 environment: auth configured and matching, valid planner
URL, no `request_nonce` in the body, all browser steps succeeding. -/
def envS1NoNonce : EnvS1 :=
  ⟨"k", some "k", some url0, none, "GEN-UUID", "2024-01-01T00:00:00.000Z", 5,
   true, true, true, true, true, "a 111.222.33 b", "<html>", true, "boom"⟩

/-- A v3 HTTP exchange with no API key configured, a valid planner URL
and no `request_nonce` in the body. -/
def envHNoNonce : EnvHV3 := ⟨none, none, some url0, none, envAllOk⟩

end IkeaExtract

namespace IkeaExtract

/-! ## Digest shape lemmas -/

theorem hexChar_mem (n : Nat) : hexDigits.contains (hexChar n) = true := by
  unfold hexChar
  have h : n % 16 < 16 := Nat.mod_lt _ (by norm_num)
  revert h
  generalize n % 16 = k
  intro h
  interval_cases k <;> decide

theorem wordHexChars_hex (w : Nat) :
    (wordHexChars w).all (fun c => hexDigits.contains c) = true := by
  simp only [wordHexChars, List.all_cons, List.all_nil, Bool.and_true, Bool.and_eq_true]
  refine ⟨?_, ?_, ?_, ?_, ?_, ?_, ?_, ?_⟩ <;> exact hexChar_mem _

theorem digestHexChars_length (st : Sha256State) : (digestHexChars st).length = 64 := by
  simp [digestHexChars, wordHexChars]

theorem digestHexChars_hex (st : Sha256State) :
    (digestHexChars st).all (fun c => hexDigits.contains c) = true := by
  simp only [digestHexChars, List.all_append, Bool.and_eq_true]
  refine ⟨⟨⟨⟨⟨⟨⟨?_, ?_⟩, ?_⟩, ?_⟩, ?_⟩, ?_⟩, ?_⟩, ?_⟩ <;> exact wordHexChars_hex _

theorem sha256Hex_length (s : String) : (sha256Hex s).length = 64 :=
  digestHexChars_length _

theorem sha256Hex_all_hex (s : String) :
    (sha256Hex s).all (fun c => hexDigits.contains c) = true :=
  digestHexChars_hex _

theorem take12_length (l : List Char) (h : l.length = 64) : (l.take 12).length = 12 := by
  simp [List.length_take, h]

theorem all_take (l : List Char) (p : Char → Bool) (h : l.all p = true) (n : Nat) :
    (l.take n).all p = true := by
  rw [List.all_eq_true] at h ⊢
  intro x hx
  exact h x (List.take_subset n l hx)

theorem computeHash_shape (items : List JsItem) (pid nonce ts : String) :
    (computeHash items pid nonce ts).length = 12 ∧
    (computeHash items pid nonce ts).data.all (fun c => hexDigits.contains c) = true := by
  unfold computeHash
  constructor
  · exact take12_length _ (sha256Hex_length _)
  · exact all_take _ _ (sha256Hex_all_hex _) _

theorem computeExtractionHash_shape (items : List ItemV3) (pid nonce ts : String) :
    (computeExtractionHash items pid nonce ts).length = 12 ∧
    (computeExtractionHash items pid nonce ts).data.all (fun c => hexDigits.contains c) = true := by
  unfold computeExtractionHash
  constructor
  · exact take12_length _ (sha256Hex_length _)
  · exact all_take _ _ (sha256Hex_all_hex _) _

/-! ## UUID regex lemmas -/

theorem takeHexN_sound : ∀ (n : Nat) (l a r : List Char), takeHexN n l = some (a, r) →
    l = a ++ r ∧ a.length = n ∧ a.all isHexUuidChar = true := by
  intro n
  induction n with
  | zero =>
    intro l a r h
    simp only [takeHexN, Option.some.injEq, Prod.mk.injEq] at h
    obtain ⟨ha, hr⟩ := h
    subst ha
    subst hr
    simp
  | succ n ih =>
    intro l a r h
    cases l with
    | nil => simp [takeHexN] at h
    | cons c cs =>
      simp only [takeHexN] at h
      by_cases hc : isHexUuidChar c
      · rw [if_pos hc] at h
        cases htk : takeHexN n cs with
        | none => rw [htk] at h; simp at h
        | some p =>
          obtain ⟨a1, r1⟩ := p
          rw [htk] at h
          simp only [Option.some.injEq, Prod.mk.injEq] at h
          obtain ⟨ha, hr⟩ := h
          subst ha
          subst hr
          obtain ⟨h1, h2, h3⟩ := ih cs a1 r1 htk
          refine ⟨by rw [h1]; rfl, by simp [h2], ?_⟩
          simp [List.all_cons, hc, h3]
      · rw [if_neg hc] at h
        simp at h

theorem takeHexN_complete : ∀ (a r : List Char), a.all isHexUuidChar = true →
    takeHexN a.length (a ++ r) = some (a, r) := by
  intro a
  induction a with
  | nil => intro r _; rfl
  | cons c cs ih =>
    intro r hall
    simp only [List.all_cons, Bool.and_eq_true] at hall
    show takeHexN (cs.length + 1) (c :: (cs ++ r)) = some (c :: cs, r)
    simp only [takeHexN, hall.1, if_true]
    rw [show takeHexN cs.length (cs ++ r) = some (cs, r) from ih r hall.2]

theorem expectDash_eq {r r2 : List Char} (h : expectDash r = some r2) : r = '-' :: r2 := by
  cases r with
  | nil => simp [expectDash] at h
  | cons d rest =>
    by_cases hd : d = '-'
    · subst hd
      simp [expectDash] at h
      rw [h]
    · simp [expectDash, hd] at h

theorem expectDash_cons (r : List Char) : expectDash ('-' :: r) = some r := by
  simp [expectDash]

theorem groupsAt_sound : ∀ (gs : List Nat) (l m r : List Char),
    groupsAt gs l = some (m, r) → l = m ++ r := by
  intro gs
  induction gs with
  | nil =>
    intro l m r h
    simp only [groupsAt, Option.some.injEq, Prod.mk.injEq] at h
    obtain ⟨hm, hr⟩ := h
    subst hm
    subst hr
    rfl
  | cons n ns ih =>
    intro l m r h
    cases ns with
    | nil => exact (takeHexN_sound n l m r h).1
    | cons n2 ns2 =>
      simp only [groupsAt, Option.bind_eq_some, Option.map_eq_some'] at h
      obtain ⟨⟨a, r1⟩, htk, r2, hdash, ⟨b, rest⟩, hg, hmr⟩ := h
      dsimp only at hdash hmr
      rw [Prod.mk.injEq] at hmr
      obtain ⟨hm, hr⟩ := hmr
      subst hm
      subst hr
      have h1 := (takeHexN_sound n l a r1 htk).1
      have h2 := expectDash_eq hdash
      have h3 := ih r2 b rest hg
      rw [h1, h2, h3]
      simp

theorem groupsAt_shift : ∀ (gs : List Nat) (l m r : List Char),
    groupsAt gs l = some (m, r) → ∀ rr, groupsAt gs (m ++ rr) = some (m, rr) := by
  intro gs
  induction gs with
  | nil =>
    intro l m r h rr
    simp only [groupsAt, Option.some.injEq, Prod.mk.injEq] at h
    obtain ⟨hm, _⟩ := h
    subst hm
    rfl
  | cons n ns ih =>
    intro l m r h rr
    cases ns with
    | nil =>
      obtain ⟨_, hlen, hall⟩ := takeHexN_sound n l m r h
      show takeHexN n (m ++ rr) = some (m, rr)
      rw [← hlen]
      exact takeHexN_complete m rr hall
    | cons n2 ns2 =>
      simp only [groupsAt, Option.bind_eq_some, Option.map_eq_some'] at h ⊢
      obtain ⟨⟨a, r1⟩, htk, r2, hdash, ⟨b, rest⟩, hg, hmr⟩ := h
      dsimp only at hdash hmr
      rw [Prod.mk.injEq] at hmr
      obtain ⟨hm, _⟩ := hmr
      subst hm
      obtain ⟨_, hlen, hall⟩ := takeHexN_sound n l a r1 htk
      refine ⟨⟨a, '-' :: (b ++ rr)⟩, ?_, ⟨b ++ rr, ?_, ⟨b, rr⟩, ?_, ?_⟩⟩
      · rw [show (a ++ '-' :: b) ++ rr = a ++ ('-' :: (b ++ rr)) from by simp, ← hlen]
        exact takeHexN_complete a _ hall
      · exact expectDash_cons _
      · exact ih r2 b rest hg rr
      · rfl

theorem uuidAt_sound {l m : List Char} (h : uuidAt l = some m) :
    (∃ r, l = m ++ r) ∧ shapedB m = true := by
  unfold uuidAt at h
  cases hg : groupsAt uuidGroups l with
  | none => rw [hg] at h; simp at h
  | some p =>
    obtain ⟨m1, r1⟩ := p
    rw [hg] at h
    simp only [Option.some.injEq] at h
    subst h
    refine ⟨⟨r1, groupsAt_sound _ _ _ _ hg⟩, ?_⟩
    have h2 := groupsAt_shift _ _ _ _ hg []
    rw [List.append_nil] at h2
    simp [shapedB, uuidAt, h2]

theorem uuidAt_shaped_shift {m : List Char} (h : shapedB m = true) (r : List Char) :
    uuidAt (m ++ r) = some m := by
  have hm : uuidAt m = some m := by
    simpa [shapedB] using h
  unfold uuidAt at hm ⊢
  cases hg : groupsAt uuidGroups m with
  | none => rw [hg] at hm; simp at hm
  | some p =>
    obtain ⟨m1, r1⟩ := p
    rw [hg] at hm
    simp only [Option.some.injEq] at hm
    subst hm
    have hd := groupsAt_sound _ _ _ _ hg
    have hr1 : r1 = [] := by
      have hc := congrArg List.length hd
      simp at hc
      exact hc
    subst hr1
    rw [groupsAt_shift _ _ _ _ hg r]

theorem scanUuid_sound : ∀ (l m : List Char), scanUuid l = some m →
    shapedB m = true ∧ occursIn m l := by
  intro l
  induction l with
  | nil => intro m h; simp [scanUuid] at h
  | cons c cs ih =>
    intro m h
    simp only [scanUuid] at h
    cases hu : uuidAt (c :: cs) with
    | some m1 =>
      rw [hu] at h
      simp only [Option.some.injEq] at h
      subst h
      obtain ⟨⟨r, hr⟩, hsh⟩ := uuidAt_sound hu
      exact ⟨hsh, [], r, by simpa using hr⟩
    | none =>
      rw [hu] at h
      obtain ⟨hsh, pre, post, hocc⟩ := ih m h
      exact ⟨hsh, c :: pre, post, by simp [hocc]⟩

theorem scanUuid_complete : ∀ (pre t post : List Char), shapedB t = true →
    scanUuid (pre ++ t ++ post) ≠ none := by
  intro pre
  induction pre with
  | nil =>
    intro t post hsh
    cases t with
    | nil => simp [shapedB, uuidAt, uuidGroups, groupsAt, takeHexN] at hsh
    | cons c t2 =>
      have hsh2 := uuidAt_shaped_shift hsh post
      show scanUuid ([] ++ (c :: t2) ++ post) ≠ none
      rw [show ([] ++ (c :: t2) ++ post) = c :: (t2 ++ post) from by simp]
      rw [show ((c :: t2) ++ post) = c :: (t2 ++ post) from by simp] at hsh2
      simp [scanUuid, hsh2]
  | cons c pre2 ih =>
    intro t post hsh
    rw [show ((c :: pre2) ++ t ++ post) = c :: (pre2 ++ t ++ post) from by simp]
    simp only [scanUuid]
    cases hu : uuidAt (c :: (pre2 ++ t ++ post)) with
    | some m => simp
    | none => simpa using ih t post hsh

/-! ## Article-number parser lemmas -/

theorem takeDigitsN_sound : ∀ (n : Nat) (l a r : List Char), takeDigitsN n l = some (a, r) →
    a.length = n ∧ a.all Char.isDigit = true := by
  intro n
  induction n with
  | zero =>
    intro l a r h
    simp only [takeDigitsN, Option.some.injEq, Prod.mk.injEq] at h
    obtain ⟨ha, _⟩ := h
    subst ha
    simp
  | succ n ih =>
    intro l a r h
    cases l with
    | nil => simp [takeDigitsN] at h
    | cons c cs =>
      simp only [takeDigitsN] at h
      by_cases hc : c.isDigit
      · rw [if_pos hc] at h
        cases htk : takeDigitsN n cs with
        | none => rw [htk] at h; simp at h
        | some p =>
          obtain ⟨a1, r1⟩ := p
          rw [htk] at h
          simp only [Option.some.injEq, Prod.mk.injEq] at h
          obtain ⟨ha, _⟩ := h
          subst ha
          obtain ⟨h2, h3⟩ := ih cs a1 r1 htk
          exact ⟨by simp [h2], by simp [List.all_cons, hc, h3]⟩
      · rw [if_neg hc] at h
        simp at h

theorem matchArtAt_dotted : ∀ (l : List Char) (s : String), matchArtAt l = some s →
    isDottedArt s = true := by
  intro l s h
  simp only [matchArtAt, Option.bind_eq_some, Option.map_eq_some'] at h
  obtain ⟨⟨d1, r1⟩, h1, r2, hs1, ⟨d2, r3⟩, h2, r4, hs2, ⟨d3, r5⟩, h3, hstr⟩ := h
  dsimp only at hs1 hs2 hstr
  obtain ⟨hl1, ha1⟩ := takeDigitsN_sound 3 l d1 r1 h1
  obtain ⟨hl2, ha2⟩ := takeDigitsN_sound 3 r2 d2 r3 h2
  obtain ⟨hl3, ha3⟩ := takeDigitsN_sound 2 r4 d3 r5 h3
  obtain ⟨a, b, c, hd1⟩ := List.length_eq_three.mp hl1
  obtain ⟨d, e, f, hd2⟩ := List.length_eq_three.mp hl2
  obtain ⟨g, k, hd3⟩ := List.length_eq_two.mp hl3
  subst hd1
  subst hd2
  subst hd3
  subst hstr
  simp only [List.all_cons, List.all_nil, Bool.and_eq_true, Bool.and_true] at ha1 ha2 ha3
  simp [isDottedArt, ha1.1, ha1.2.1, ha1.2.2, ha2.1, ha2.2.1, ha2.2.2, ha3.1, ha3.2]

theorem scanArts_props (full : List Char) :
    ∀ (fuel : Nat) (l : List Char) (i : Nat) (seen : List String) (it : JsItem),
      it ∈ scanArts full fuel l i seen →
      it.article_number ∉ seen ∧ isDottedArt it.article_number = true ∧ it.qty = 1 := by
  intro fuel
  induction fuel with
  | zero => intro l i seen it h; simp [scanArts] at h
  | succ fuel ih =>
    intro l i seen it h
    cases l with
    | nil => simp [scanArts] at h
    | cons c cs =>
      simp only [scanArts] at h
      cases hm : matchArtAt (c :: cs) with
      | some art =>
        rw [hm] at h
        by_cases hs : seen.contains art = true
        · simp only [hs, if_true] at h
          exact ih _ _ _ it h
        · simp only [hs, if_false, Bool.false_eq_true, List.mem_cons] at h
          rcases h with h | h
          · subst h
            refine ⟨?_, matchArtAt_dotted _ _ hm, rfl⟩
            intro hmem
            exact hs (by simpa using hmem)
          · obtain ⟨hni, hd, hq⟩ := ih _ _ _ it h
            exact ⟨fun hmem => hni (List.mem_cons_of_mem _ hmem), hd, hq⟩
      | none =>
        rw [hm] at h
        exact ih _ _ _ it h

theorem scanArts_nodup (full : List Char) :
    ∀ (fuel : Nat) (l : List Char) (i : Nat) (seen : List String),
      ((scanArts full fuel l i seen).map (fun it => it.article_number)).Nodup := by
  intro fuel
  induction fuel with
  | zero => intro l i seen; simp [scanArts]
  | succ fuel ih =>
    intro l i seen
    cases l with
    | nil => simp [scanArts]
    | cons c cs =>
      simp only [scanArts]
      cases hm : matchArtAt (c :: cs) with
      | some art =>
        by_cases hs : seen.contains art = true
        · simp only [hs, if_true]
          exact ih _ _ _
        · simp only [hs, if_false, Bool.false_eq_true, List.map_cons]
          refine List.nodup_cons.mpr ⟨?_, ih _ _ _⟩
          intro hmem
          obtain ⟨it, hit, heq⟩ := List.mem_map.mp hmem
          obtain ⟨hni, _, _⟩ := scanArts_props full fuel _ _ _ it hit
          rw [heq] at hni
          exact hni (List.mem_cons_self _ _)
      | none => exact ih _ _ _

theorem scanArts_qty_one (full : List Char) (fuel : Nat) (l : List Char) (i : Nat)
    (seen : List String) :
    (scanArts full fuel l i seen).all (fun it => it.qty == 1) = true := by
  rw [List.all_eq_true]
  intro it hit
  obtain ⟨_, _, hq⟩ := scanArts_props full fuel l i seen it hit
  simp [hq]

theorem foldl_qty_one : ∀ (items : List JsItem), items.all (fun it => it.qty == 1) = true →
    ∀ n, items.foldl (fun s i => s + i.qty) n = n + items.length := by
  intro items
  induction items with
  | nil => intro _ n; simp
  | cons it rest ih =>
    intro h n
    simp only [List.all_cons, Bool.and_eq_true, beq_iff_eq] at h
    simp only [List.foldl_cons, List.length_cons, h.1]
    rw [ih (by rw [List.all_eq_true]; intro x hx; exact (List.all_eq_true.mp h.2) x hx) (n + 1)]
    omega

theorem parseItemsFromText_qty (text : String) :
    (parseItemsFromText text).all (fun it => it.qty == 1) = true :=
  scanArts_qty_one _ _ _ _ _

theorem parseItemsFromText_sum (text : String) :
    (parseItemsFromText text).foldl (fun s i => s + i.qty) 0 = (parseItemsFromText text).length := by
  have := foldl_qty_one (parseItemsFromText text) (parseItemsFromText_qty text) 0
  simpa using this

/-! ## Hash field-dependence lemmas -/

theorem hashItemJson_congr {a b : JsItem} (h : agreeIdFields a b) :
    hashItemJson a = hashItemJson b := by
  obtain ⟨h1, h2, h3⟩ := h
  unfold hashItemJson
  rw [h1, h2, h3]

theorem map_hashItemJson_congr : ∀ {items1 items2 : List JsItem},
    List.Forall₂ agreeIdFields items1 items2 →
    items1.map hashItemJson = items2.map hashItemJson := by
  intro items1 items2 h
  induction h with
  | nil => rfl
  | cons h1 _ ih => simp only [List.map_cons, hashItemJson_congr h1, ih]

/-! ## Orchestrator and handler lemmas -/

theorem readRowsV3_none {msg : String} : ∀ {rows : List (Option String)}, none ∈ rows →
    readRowsV3 msg rows = .error (jsErr msg) := by
  intro rows h
  induction rows with
  | nil => simp at h
  | cons o rest ih =>
    cases o with
    | none => rfl
    | some t =>
      have hr : none ∈ rest := by
        rcases List.mem_cons.mp h with h1 | h1
        · exact absurd h1 (by simp)
        · exact h1
      simp only [readRowsV3, ih hr]

theorem readRowsV3_all_some {msg : String} : ∀ {rows : List (Option String)},
    rows.all Option.isSome = true →
    ∃ items, readRowsV3 msg rows = .ok items ∧ items.length = rows.length := by
  intro rows h
  induction rows with
  | nil => exact ⟨[], rfl, rfl⟩
  | cons o rest ih =>
    simp only [List.all_cons, Bool.and_eq_true] at h
    cases o with
    | none => simp at h
    | some t =>
      obtain ⟨items, hi, hl⟩ := ih h.2
      refine ⟨⟨jsTrim t, extractGamme (jsTrim t), 1⟩ :: items, ?_, by simp [hl]⟩
      simp only [readRowsV3, hi]

theorem runTryV3_snd (env : EnvV3) : (runTryV3 env).2 = env.launchOk := by
  unfold runTryV3
  by_cases h1 : env.launchOk <;> by_cases h2 : env.newPageOk <;> by_cases h3 : env.gotoOk <;>
    by_cases h4 : env.clickOk <;> simp [h1, h2, h3, h4]

theorem runTryV3_ok (env : EnvV3) (h1 : env.launchOk = true) (h2 : env.newPageOk = true)
    (h3 : env.gotoOk = true) (h4 : env.clickOk = true) :
    runTryV3 env = (readRowsV3 env.errMsg env.rows, true) := by
  unfold runTryV3
  simp [h1, h2, h3, h4]

theorem extractItemsV3_err {env : EnvV3} {url nonce : String} {e : JsError}
    (h : validateUrl url = .error e) : extractItemsV3 env url nonce = (.error e, []) := by
  unfold extractItemsV3
  rw [h]

theorem extractItemsV3_ok_fst {env : EnvV3} {url nonce pid : String}
    (h : validateUrl url = .ok pid) (hc : env.closeOk = true) :
    (extractItemsV3 env url nonce).1 =
      .ok (match (runTryV3 env).1 with
           | .ok items =>
             .envOk ⟨"v3", computeExtractionHash items pid nonce env.now,
                     env.now, pid, url, nonce, true, items⟩
           | .error e => .envFail e.message) := by
  unfold extractItemsV3
  rw [h]
  by_cases h2 : (runTryV3 env).2 <;> simp [h2, hc]

theorem extractItemsV3_trace (env : EnvV3) (url nonce : String) :
    (extractItemsV3 env url nonce).2 = [] ∨ (extractItemsV3 env url nonce).2 = [.launchTry] ∨
    (extractItemsV3 env url nonce).2 = [.launchTry, .launched, .closed] := by
  unfold extractItemsV3
  cases h : validateUrl url with
  | error e => left; rfl
  | ok pid =>
    by_cases h2 : (runTryV3 env).2
    · right; right; simp [h2]
    · right; left; simp [h2]

theorem s1Validate_error_shape {env : EnvS1} {resp : S1Resp} (h : s1Validate env = .error resp) :
    resp = ⟨401, .unauthorized⟩ ∨
    resp = ⟨400, .fieldError "MISSING_URL" "planner_url est obligatoire"⟩ ∨
    resp = ⟨400, .fieldError "INVALID_DOMAIN" "URL doit être kitchen.planner.ikea.com"⟩ ∨
    resp = ⟨400, .fieldError "MISSING_PLANNER_ID" "UUID manquant dans l'URL"⟩ := by
  unfold s1Validate at h
  by_cases ha : (env.apiKey == "" || !(env.headerKey.getD "" == env.apiKey)) = true
  · rw [if_pos ha] at h
    left
    exact (Except.error.injEq .. ▸ h).symm
  · rw [if_neg ha] at h
    by_cases hu : (!jsTruthy env.planner_url) = true
    · rw [if_pos hu] at h
      right; left
      exact (Except.error.injEq .. ▸ h).symm
    · rw [if_neg hu] at h
      by_cases hd : (!jsIncludes (env.planner_url.getD "") plannerDomain) = true
      · rw [if_pos hd] at h
        right; right; left
        exact (Except.error.injEq .. ▸ h).symm
      · rw [if_neg hd] at h
        cases hp : extractPlannerId (env.planner_url.getD "") with
        | none =>
          rw [hp] at h
          right; right; right
          exact (Except.error.injEq .. ▸ h).symm
        | some pid =>
          rw [hp] at h
          simp at h

theorem s1Validate_ok_sound {env : EnvS1} {url pid nonce : String}
    (h : s1Validate env = .ok (url, pid, nonce)) :
    url = env.planner_url.getD "" ∧ jsIncludes url plannerDomain = true ∧
    extractPlannerId url = some pid := by
  unfold s1Validate at h
  by_cases ha : (env.apiKey == "" || !(env.headerKey.getD "" == env.apiKey)) = true
  · rw [if_pos ha] at h; simp at h
  · rw [if_neg ha] at h
    by_cases hu : (!jsTruthy env.planner_url) = true
    · rw [if_pos hu] at h; simp at h
    · rw [if_neg hu] at h
      by_cases hd : (!jsIncludes (env.planner_url.getD "") plannerDomain) = true
      · rw [if_pos hd] at h; simp at h
      · rw [if_neg hd] at h
        cases hp : extractPlannerId (env.planner_url.getD "") with
        | none => rw [hp] at h; simp at h
        | some pid2 =>
          rw [hp] at h
          simp only [Except.ok.injEq, Prod.mk.injEq] at h
          obtain ⟨h1, h2, _⟩ := h
          subst h1
          subst h2
          refine ⟨rfl, ?_, hp⟩
          simpa using hd

theorem runBrowseS1_snd (env : EnvS1) (url pid nonce : String) :
    (runBrowseS1 env url pid nonce).2 = env.launchOk := by
  unfold runBrowseS1
  by_cases h1 : env.launchOk <;> by_cases h2 : env.newPageOk <;> by_cases h3 : env.gotoOk <;>
    by_cases h4 : env.evalOk <;> by_cases h5 : env.contentOk <;> simp [h1, h2, h3, h4, h5]

theorem runBrowseS1_ok {env : EnvS1} {url pid nonce : String} {d : S1Data}
    (h : (runBrowseS1 env url pid nonce).1 = .ok d) :
    d.totals.total_quantity = d.totals.items_count ∧ d.request_nonce = nonce := by
  unfold runBrowseS1 at h
  by_cases h1 : env.launchOk = true
  case neg => rw [if_neg h1] at h; simp at h
  rw [if_pos h1] at h
  by_cases h2 : env.newPageOk = true
  case neg => rw [if_neg h2] at h; simp at h
  rw [if_pos h2] at h
  by_cases h3 : env.gotoOk = true
  case neg => rw [if_neg h3] at h; simp at h
  rw [if_pos h3] at h
  by_cases h4 : env.evalOk = true
  case neg => rw [if_neg h4] at h; simp at h
  rw [if_pos h4] at h
  by_cases h5 : env.contentOk = true
  case neg => rw [if_neg h5] at h; simp at h
  rw [if_pos h5] at h
  dsimp only at h
  rw [Except.ok.injEq] at h
  subst h
  exact ⟨parseItemsFromText_sum _, rfl⟩

theorem handlerS1_pair (env : EnvS1) :
    (∃ resp, s1Validate env = .error resp ∧ handlerS1 env = (resp, [])) ∨
    (∃ url pid nonce, s1Validate env = .ok (url, pid, nonce)) := by
  cases hv : s1Validate env with
  | error resp => exact .inl ⟨resp, rfl, by unfold handlerS1; rw [hv]⟩
  | ok t =>
    obtain ⟨a, b, c⟩ := t
    exact .inr ⟨a, b, c, hv ▸ rfl⟩

theorem handlerS1_ok_resp {env : EnvS1} {url pid nonce : String}
    (hv : s1Validate env = .ok (url, pid, nonce)) :
    (handlerS1 env).1 =
      (match (runBrowseS1 env url pid nonce).1 with
       | .ok d => (⟨200, .success d⟩ : S1Resp)
       | .error e =>
         ⟨200, .extractionFailed "PLAYWRIGHT_FAILED"
               (if e.message == "" then "Playwright failed" else e.message) env.durationMs⟩) ∧
    (handlerS1 env).2 =
      (if (runBrowseS1 env url pid nonce).2 then [.launchTry, .launched, .closed]
       else [.launchTry]) := by
  unfold handlerS1
  rw [hv]
  exact ⟨rfl, rfl⟩

theorem handlerS1_trace (env : EnvS1) :
    (handlerS1 env).2 = [] ∨ (handlerS1 env).2 = [.launchTry] ∨
    (handlerS1 env).2 = [.launchTry, .launched, .closed] := by
  rcases handlerS1_pair env with ⟨resp, _, hh⟩ | ⟨url, pid, nonce, hv⟩
  · left; rw [hh]
  · rw [(handlerS1_ok_resp hv).2]
    by_cases hb : (runBrowseS1 env url pid nonce).2
    · right; right; simp [hb]
    · right; left; simp [hb]

theorem handlerS1_status (env : EnvS1) :
    (handlerS1 env).1.status = 401 ∨ (handlerS1 env).1.status = 400 ∨
    (handlerS1 env).1.status = 200 := by
  rcases handlerS1_pair env with ⟨resp, hv, hh⟩ | ⟨url, pid, nonce, hv⟩
  · rw [hh]
    rcases s1Validate_error_shape hv with h | h | h | h <;> rw [h]
    · left; rfl
    all_goals right; left; rfl
  · rw [(handlerS1_ok_resp hv).1]
    cases hb : (runBrowseS1 env url pid nonce).1 with
    | ok d => right; right; rfl
    | error e => right; right; rfl

/-! # Claim theorems -/

/-- C1 (counterexample): the claim "the extraction operation never
propagates a raw exception to its caller, including validation failures
thrown by validateUrl" is false for the v3 build — for an invalid-domain
URL, `extractItems` rethrows the `ExtractionError` from `validateUrl`
instead of returning a `success = false` envelope. -/
theorem claim1_counterexample :
    extractItemsV3 envAllOk "http://evil.example/x" "n" = (.error invalidDomainErr, []) := by
  decide

/-- C1 (amended): in the v3 build, exceptions thrown by `validateUrl`
(and a rejected `close()` in the `finally`) propagate out of
`extractItems`; every other internal fault is caught and converted into
an envelope: once validation passes and `close()` succeeds the result is
always a returned envelope, and a validation error is rethrown as-is. In
the simple-v1 build the handler body always produces an HTTP response
(401, 400 or 200), never an unhandled fault. -/
theorem claim1_amended :
    (∀ (env : EnvV3) (url nonce pid : String), validateUrl url = .ok pid → env.closeOk = true →
       ∃ r, (extractItemsV3 env url nonce).1 = .ok r)
    ∧ (∀ (env : EnvV3) (url nonce : String) (e : JsError), validateUrl url = .error e →
       extractItemsV3 env url nonce = (.error e, []))
    ∧ (∀ env : EnvS1, (handlerS1 env).1.status = 401 ∨ (handlerS1 env).1.status = 400 ∨
       (handlerS1 env).1.status = 200) := by
  refine ⟨?_, ?_, handlerS1_status⟩
  · intro env url nonce pid h hc
    rw [extractItemsV3_ok_fst h hc]
    exact ⟨_, rfl⟩
  · intro env url nonce e h
    exact extractItemsV3_err h

/-- C1 (witness): the amended claim applied to a concrete all-succeeding
environment and a valid planner URL. -/
theorem claim1_amended_witness :
    validateUrl url0 = .ok pid0 ∧ envAllOk.closeOk = true ∧
    ∃ r, (extractItemsV3 envAllOk url0 "n").1 = .ok r :=
  ⟨by decide, rfl, claim1_amended.1 envAllOk url0 "n" pid0 (by decide) rfl⟩

/-- C2 (confirmed): in both builds, for every environment the browser
lifecycle trace contains exactly as many `close()` calls as successful
launches (so `close` runs exactly once per opened browser, on every exit
path), and the browser is opened at most once; in particular when the
launch fails no `close` happens. -/
theorem claim2_close_once_per_open :
    (∀ (env : EnvV3) (url nonce : String),
       (extractItemsV3 env url nonce).2.count .closed
         = (extractItemsV3 env url nonce).2.count .launched
       ∧ (extractItemsV3 env url nonce).2.count .launched ≤ 1)
    ∧ (∀ env : EnvS1,
       (handlerS1 env).2.count .closed = (handlerS1 env).2.count .launched
       ∧ (handlerS1 env).2.count .launched ≤ 1) := by
  constructor
  · intro env url nonce
    rcases extractItemsV3_trace env url nonce with h | h | h <;> rw [h] <;>
      exact ⟨by decide, by decide⟩
  · intro env
    rcases handlerS1_trace env with h | h | h <;> rw [h] <;> exact ⟨by decide, by decide⟩

/-- C3 (confirmed): both hash functions are deterministic (they are pure
functions of their four arguments) and always return a string of exactly
12 lowercase hexadecimal characters. -/
theorem claim3_hash_deterministic_12_hex :
    ∀ (items : List JsItem) (itemsV : List ItemV3) (pid nonce ts : String),
      computeHash items pid nonce ts = computeHash items pid nonce ts
      ∧ (computeHash items pid nonce ts).length = 12
      ∧ (computeHash items pid nonce ts).data.all (fun c => hexDigits.contains c) = true
      ∧ computeExtractionHash itemsV pid nonce ts = computeExtractionHash itemsV pid nonce ts
      ∧ (computeExtractionHash itemsV pid nonce ts).length = 12
      ∧ (computeExtractionHash itemsV pid nonce ts).data.all (fun c => hexDigits.contains c)
          = true :=
  fun items itemsV pid nonce ts =>
    ⟨rfl, (computeHash_shape items pid nonce ts).1, (computeHash_shape items pid nonce ts).2,
     rfl, (computeExtractionHash_shape itemsV pid nonce ts).1,
     (computeExtractionHash_shape itemsV pid nonce ts).2⟩

/-- C4 (counterexample): for the v3 `computeExtractionHash`, two
one-item lists that agree on raw name and qty (no article numbers exist
on v3 items) but differ only in the `gamme` field hash differently, so
the hash does not depend only on the identity-relevant fields. -/
theorem claim4_counterexample :
    (ItemV3.mk "" "A" 1).raw_name = (ItemV3.mk "" "B" 1).raw_name
    ∧ (ItemV3.mk "" "A" 1).qty = (ItemV3.mk "" "B" 1).qty
    ∧ computeExtractionHash [ItemV3.mk "" "A" 1] "P" "N" "T"
        ≠ computeExtractionHash [ItemV3.mk "" "B" 1] "P" "N" "T" := by
  refine ⟨rfl, rfl, ?_⟩
  decide

/-- C4 (amended): the simple-v1 `computeHash` depends only on each
item's raw name, article number and qty (plus plannerId, nonce,
timestamp): item lists that agree pointwise on those three fields hash
identically whatever other fields the items carry. The v3
`computeExtractionHash` serializes items whole, so other fields (gamme)
can change its output. -/
theorem claim4_amended :
    ∀ (items1 items2 : List JsItem) (pid nonce ts : String),
      List.Forall₂ agreeIdFields items1 items2 →
      computeHash items1 pid nonce ts = computeHash items2 pid nonce ts := by
  intro items1 items2 pid nonce ts h
  unfold computeHash
  rw [map_hashItemJson_congr h]

/-- C4 (witness): the amended claim applied to two concrete one-item
lists differing only in an extra volatile field. -/
theorem claim4_amended_witness :
    List.Forall₂ agreeIdFields
      [⟨"a", "111.222.33", 1, [("volatile", "x")]⟩] [⟨"a", "111.222.33", 1, []⟩]
    ∧ computeHash [⟨"a", "111.222.33", 1, [("volatile", "x")]⟩] "P" "N" "T"
        = computeHash [⟨"a", "111.222.33", 1, []⟩] "P" "N" "T" :=
  ⟨.cons ⟨rfl, rfl, rfl⟩ .nil, claim4_amended _ _ _ _ _ (.cons ⟨rfl, rfl, rfl⟩ .nil)⟩

/-- C5 (confirmed): `parseItemsFromText` never emits two items with the
same normalized article number, every emitted article number has the
canonical dotted form, and a text containing `123.456.78` and
`123-456-78` yields exactly one item, with the dotted article number. -/
theorem claim5_dedup_normalized :
    ∀ text : String,
      ((parseItemsFromText text).map (fun it => it.article_number)).Nodup
      ∧ (parseItemsFromText text).all (fun it => isDottedArt it.article_number) = true
      ∧ (parseItemsFromText "IKEA 123.456.78 METOD 123-456-78 end").map
          (fun it => it.article_number) = ["123.456.78"] := by
  intro text
  refine ⟨scanArts_nodup _ _ _ _ _, ?_, by decide⟩
  rw [List.all_eq_true]
  intro it hit
  obtain ⟨_, hd, _⟩ := scanArts_props _ _ _ _ _ it hit
  simp [hd]

/-- C6 (confirmed): `extractPlannerId` returns a value exactly when the
URL contains a UUID-shaped (8-4-4-4-12 hex, any case) substring; any
returned value is the uppercase of such a substring; and when the domain
substring check passes but no UUID occurs, `validateUrl` fails with
MISSING_PLANNER_ID. -/
theorem claim6_extractPlannerId_characterization :
    ∀ url : String,
      ((∃ t, shapedB t = true ∧ occursIn t url.data) ↔ ∃ s, extractPlannerId url = some s)
      ∧ (∀ s, extractPlannerId url = some s →
          ∃ t, shapedB t = true ∧ occursIn t url.data ∧ s = String.mk (t.map jsUpperChar))
      ∧ (jsIncludes url plannerDomain = true → extractPlannerId url = none →
          validateUrl url = .error missingPlannerIdErr) := by
  intro url
  refine ⟨⟨?_, ?_⟩, ?_, ?_⟩
  · rintro ⟨t, hsh, hocc⟩
    obtain ⟨pre, post, hsplit⟩ := hocc
    unfold extractPlannerId
    rw [hsplit]
    cases hs : scanUuid (pre ++ t ++ post) with
    | none => exact absurd hs (scanUuid_complete pre t post hsh)
    | some m => exact ⟨String.mk (m.map jsUpperChar), rfl⟩
  · rintro ⟨s, hs⟩
    unfold extractPlannerId at hs
    cases hsc : scanUuid url.data with
    | none => rw [hsc] at hs; simp at hs
    | some m =>
      obtain ⟨hsh, hocc⟩ := scanUuid_sound _ _ hsc
      exact ⟨m, hsh, hocc⟩
  · intro s hs
    unfold extractPlannerId at hs
    cases hsc : scanUuid url.data with
    | none => rw [hsc] at hs; simp at hs
    | some m =>
      rw [hsc] at hs
      simp only [Option.map_some', Option.some.injEq] at hs
      obtain ⟨hsh, hocc⟩ := scanUuid_sound _ _ hsc
      exact ⟨m, hsh, hocc, hs.symm⟩
  · intro hd hn
    unfold validateUrl
    rw [hd]
    simp [hn]

/-- C6 (witness): the characterization applied to a concrete planner URL
with a lowercase UUID, returning it uppercased. -/
theorem claim6_witness :
    extractPlannerId url0 = some pid0
    ∧ ∃ t, shapedB t = true ∧ occursIn t url0.data ∧ pid0 = String.mk (t.map jsUpperChar) :=
  ⟨by decide, (claim6_extractPlannerId_characterization url0).2.1 pid0 (by decide)⟩

/-- C7 (counterexample): the claim "every URL whose host is not the
planner hostname fails validation with InvalidDomain before any browser
launch" is false: the code only checks for the domain as a substring
anywhere in the URL, so a URL with host `evil.com` passes `validateUrl`
and the browser is launched for it. -/
theorem claim7_counterexample :
    specHostOf urlEvil = "evil.com"
    ∧ specHostMatches (specHostOf urlEvil) = false
    ∧ validateUrl urlEvil = .ok pid0
    ∧ (extractItemsV3 envAllOk urlEvil "n").2 = [.launchTry, .launched, .closed] := by
  decide

/-- C7 (amended): the domain check is a substring test, not a host
check: every URL that does not contain the substring
`kitchen.planner.ikea.com` anywhere fails with INVALID_DOMAIN before any
browser resource is allocated, in both builds (in v3 the error is
thrown; in simple-v1 a 401/400 response is returned); a URL containing
the substring in, say, its path passes the check whatever its host. -/
theorem claim7_amended :
    ∀ (env : EnvV3) (url nonce : String), jsIncludes url plannerDomain = false →
      validateUrl url = .error invalidDomainErr
      ∧ extractItemsV3 env url nonce = (.error invalidDomainErr, [])
      ∧ (∀ envS : EnvS1, envS.planner_url = some url →
          (handlerS1 envS).2 = []
          ∧ ((handlerS1 envS).1.status = 401 ∨ (handlerS1 envS).1.status = 400)) := by
  intro env url nonce h
  have hv : validateUrl url = .error invalidDomainErr := by
    unfold validateUrl
    rw [h]
    rfl
  refine ⟨hv, extractItemsV3_err hv, ?_⟩
  intro envS hp
  rcases handlerS1_pair envS with ⟨resp, hval, hh⟩ | ⟨u2, p2, n2, hval⟩
  · rw [hh]
    refine ⟨rfl, ?_⟩
    rcases s1Validate_error_shape hval with h1 | h1 | h1 | h1 <;> rw [h1]
    · left; rfl
    all_goals right; rfl
  · obtain ⟨hu, hd, _⟩ := s1Validate_ok_sound hval
    rw [hp] at hu
    simp only [Option.getD_some] at hu
    rw [hu, h] at hd
    exact absurd hd (by simp)

/-- C7 (witness): the amended claim applied to a URL without the domain
substring, in both builds. -/
theorem claim7_amended_witness :
    jsIncludes "http://nowhere.example/x" plannerDomain = false
    ∧ validateUrl "http://nowhere.example/x" = .error invalidDomainErr
    ∧ extractItemsV3 envAllOk "http://nowhere.example/x" "n" = (.error invalidDomainErr, [])
    ∧ (handlerS1 { envS1NoNonce with planner_url := some "http://nowhere.example/x" }).2 = [] := by
  refine ⟨by decide, ?_, ?_, ?_⟩
  · exact (claim7_amended envAllOk _ "n" (by decide)).1
  · exact (claim7_amended envAllOk _ "n" (by decide)).2.1
  · exact ((claim7_amended envAllOk _ "n" (by decide)).2.2 _ rfl).1

/-- C8 (counterexample): the claim "request_nonce is optional" is false
for the v3 build: with no API key configured and a valid planner_url,
a body without request_nonce is rejected with HTTP 400 before any
extraction. -/
theorem claim8_counterexample :
    envHNoNonce.request_nonce = none
    ∧ envHNoNonce.planner_url = some url0
    ∧ validateUrl url0 = .ok pid0
    ∧ handlerV3 envHNoNonce = (.ok (400, .badRequest), []) := by
  decide

/-- C8 (amended): `request_nonce` is optional only in the simple-v1
build: with valid auth and planner_url and no nonce in the body, the
handler proceeds (HTTP 200, one launch attempt) and uses a
server-generated `crypto.randomUUID()` value as the nonce; the v3 build
rejects a missing nonce with HTTP 400. -/
theorem claim8_amended :
    ∀ (env : EnvS1) (url pid : String),
      env.request_nonce = none → (env.apiKey == "") = false →
      env.headerKey = some env.apiKey → env.planner_url = some url →
      (url == "") = false → jsIncludes url plannerDomain = true →
      extractPlannerId url = some pid →
      (handlerS1 env).1.status = 200
      ∧ (handlerS1 env).2.count .launchTry = 1
      ∧ s1NonceIs (handlerS1 env).1.body env.genUuid = true := by
  intro env url pid hn ha hh hp hu hd hpid
  have hv : s1Validate env = .ok (url, pid, env.genUuid) := by
    unfold s1Validate
    rw [hp]
    simp [ha, hh, hu, hd, hpid, hn, jsTruthy]
  obtain ⟨hr, ht⟩ := handlerS1_ok_resp hv
  refine ⟨?_, ?_, ?_⟩
  · rw [hr]
    cases hb : (runBrowseS1 env url pid env.genUuid).1 with
    | ok d => rfl
    | error e => rfl
  · rw [ht]
    by_cases hb2 : (runBrowseS1 env url pid env.genUuid).2 = true
    · rw [if_pos hb2]; decide
    · rw [if_neg hb2]; decide
  · rw [hr]
    cases hb : (runBrowseS1 env url pid env.genUuid).1 with
    | error e => rfl
    | ok d =>
      have hnn := (runBrowseS1_ok hb).2
      simp [s1NonceIs, hnn]

/-- C8 (witness): the amended claim applied to a concrete simple-v1
environment with no nonce in the body. -/
theorem claim8_amended_witness :
    envS1NoNonce.request_nonce = none
    ∧ (handlerS1 envS1NoNonce).1.status = 200
    ∧ (handlerS1 envS1NoNonce).2.count .launchTry = 1
    ∧ s1NonceIs (handlerS1 envS1NoNonce).1.body envS1NoNonce.genUuid = true := by
  have h := claim8_amended envS1NoNonce url0 pid0 rfl (by decide) rfl rfl (by decide)
    (by decide) (by decide)
  exact ⟨rfl, h.1, h.2.1, h.2.2⟩

/-- C9 (counterexample): the claim "a failing row read causes only that
row to be skipped" is false: with rows [ok, faulting, ok] the v3
orchestrator returns a failure envelope with no items instead of a
success with two items. -/
theorem claim9_counterexample :
    envRowFault.rows = [some "A", none, some "C"]
    ∧ (extractItemsV3 envRowFault url0 "n").1 = .ok (.envFail "row gone") := by
  decide

/-- C9 (amended): there is no per-row fault tolerance in the scoped-DOM
strategy: a failing row read aborts the whole extraction, which the
catch converts into a `success = false` envelope; items are produced one
per row only when every row read succeeds. -/
theorem claim9_amended :
    ∀ (env : EnvV3) (url nonce pid : String),
      validateUrl url = .ok pid → env.launchOk = true → env.newPageOk = true →
      env.gotoOk = true → env.clickOk = true → env.closeOk = true →
      (none ∈ env.rows → (extractItemsV3 env url nonce).1 = .ok (.envFail env.errMsg))
      ∧ (env.rows.all Option.isSome = true →
          ∃ r, (extractItemsV3 env url nonce).1 = .ok (.envOk r)
               ∧ r.items.length = env.rows.length) := by
  intro env url nonce pid hv h1 h2 h3 h4 hc
  have hfst := @extractItemsV3_ok_fst env url nonce pid hv hc
  rw [runTryV3_ok env h1 h2 h3 h4] at hfst
  dsimp only at hfst
  constructor
  · intro hnone
    rw [readRowsV3_none hnone] at hfst
    exact hfst
  · intro hall
    obtain ⟨items, hi, hl⟩ := readRowsV3_all_some hall
    rw [hi] at hfst
    exact ⟨_, hfst, by simp [hl]⟩

/-- C9 (witness): the amended claim applied to the concrete
one-faulting-row environment. -/
theorem claim9_amended_witness :
    validateUrl url0 = .ok pid0 ∧ none ∈ envRowFault.rows
    ∧ (extractItemsV3 envRowFault url0 "n").1 = .ok (.envFail "row gone") :=
  ⟨by decide, by decide,
   (claim9_amended envRowFault url0 "n" pid0 (by decide) rfl rfl rfl rfl rfl).1 (by decide)⟩

/-- C10 (confirmed): every item produced by `parseItemsFromText` has
qty = 1, the sum of quantities equals the item count, and hence every
simple-v1 success response has `totals.total_quantity` equal to
`totals.items_count`. -/
theorem claim10_qty_one_totals :
    ∀ (text : String) (env : EnvS1),
      (parseItemsFromText text).all (fun it => it.qty == 1) = true
      ∧ (parseItemsFromText text).foldl (fun s i => s + i.qty) 0
          = (parseItemsFromText text).length
      ∧ s1TotalsOk (handlerS1 env).1.body = true := by
  intro text env
  refine ⟨parseItemsFromText_qty text, parseItemsFromText_sum text, ?_⟩
  rcases handlerS1_pair env with ⟨resp, hval, hh⟩ | ⟨url, pid, nonce, hv⟩
  · rw [hh]
    rcases s1Validate_error_shape hval with h | h | h | h <;> rw [h] <;> rfl
  · rw [(handlerS1_ok_resp hv).1]
    cases hb : (runBrowseS1 env url pid nonce).1 with
    | error e => rfl
    | ok d =>
      have heq := (runBrowseS1_ok hb).1
      simp [s1TotalsOk, heq]

end IkeaExtract
